import Mathlib

/-!
Shallow embedding of the `gorilla-sessions-mongo` repository
(mcquackers/gorilla-sessions-mongodb).

This file models the session-store package: the `session` record persisted in
MongoDB, the `MongoDBStore` engine with its `New` / `Save` / `clearSession` /
`save` / `saveSession` / `delete` / `load` operations, `Options.Validate` with
`InvalidTTLErr`, `NewMongoDBStore` construction, and the securecookie
`EncodeMulti` / `DecodeMulti` codec layer (gorilla/securecookie v1.1.1, as
pinned in go.mod).

Modelling conventions:
- `time.Duration` is an `Int` counting nanoseconds.  `Duration.Seconds()` is a
  float division by 1e9; its sign equals the sign of the integer nanosecond
  count, and `int(d.Seconds())` truncates toward zero, which for the values in
  scope is integer T-division by 10^9.
- `primitive.ObjectID` values are represented by their lower-case 24-character
  hex strings; `ObjectIDFromHex` accepts a 24-character hex string (either
  case) and normalises to lower case (two hex spellings of the same ObjectID
  compare equal, as the underlying 12-byte values do).
- The MongoDB collection is a list of documents plus a fault flag modelling a
  driver-level failure of `UpdateOne` (network/write error); `FindOne`,
  `FindOneAndDelete` and `UpdateOne` with upsert act on the list.
- Effectful inputs (`time.Now`, `primitive.NewObjectID().Hex()`, the request
  cookie) are passed as explicit parameters.
- `sessions.Session.Values` (a `map[interface{}]interface{}`) is opaque to the
  store engine, which only passes it through the codecs; it is modelled as a
  `String` payload, with `""` for the fresh empty map.
- The go-kit logger only logs (all its errors are discarded by the code), so it
  is omitted from the model.
-/

/-- Errors surfaced by the store operations and the codec layer. -/
inductive Err where
  /-- Error `primitive.ErrInvalidHex`: the string is not a valid ObjectID hex. -/
  | invalidHex
  /-- Error `mongo.ErrNoDocuments`: no document matched the filter. -/
  | noDocuments
  /-- Error of securecookie when the codec list is empty. -/
  | noCodecs
  /-- Aggregate securecookie `MultiError`: every configured codec failed. -/
  | codecFailed
  /-- Driver-level failure of `Collection.UpdateOne`. -/
  | updateFailed
deriving DecidableEq, Repr

/-- One securecookie codec capability: `Encode(name, value)` and
`Decode(name, token, &dst)`, each fallible.  Payloads are opaque strings. -/
structure Codec where
  encode : String → String → Option String
  decode : String → String → Option String

/-- Body loop of `securecookie.EncodeMulti`: try codecs in order, first success
wins; if every codec fails the aggregate `MultiError` is returned. -/
def encodeMultiLoop (name value : String) : List Codec → Except Err String
  | [] => .error .codecFailed
  | c :: rest =>
    match c.encode name value with
    | some tok => .ok tok
    | none => encodeMultiLoop name value rest

/-- Model of `securecookie.EncodeMulti` (v1.1.1): errors with `errNoCodecs` when the
codec list is empty, otherwise tries the codecs in order. -/
def EncodeMulti (name value : String) (codecs : List Codec) : Except Err String :=
  match codecs with
  | [] => .error .noCodecs
  | cs => encodeMultiLoop name value cs

/-- Body loop of `securecookie.DecodeMulti`: try codecs in order; the destination
is only written by a succeeding codec. -/
def decodeMultiLoop (name token : String) : List Codec → Except Err String
  | [] => .error .codecFailed
  | c :: rest =>
    match c.decode name token with
    | some payload => .ok payload
    | none => decodeMultiLoop name token rest

/-- Model of `securecookie.DecodeMulti` (v1.1.1): errors with `errNoCodecs` when the
codec list is empty, otherwise tries the codecs in order and returns the first
successfully decoded payload. -/
def DecodeMulti (name token : String) (codecs : List Codec) : Except Err String :=
  match codecs with
  | [] => .error .noCodecs
  | cs => decodeMultiLoop name token cs

/-- Hex digit as accepted by `encoding/hex.DecodeString`. -/
def isHexDigit (c : Char) : Bool :=
  c.isDigit || (('a' ≤ c) && (c ≤ 'f')) || (('A' ≤ c) && (c ≤ 'F'))

/-- A string is a valid ObjectID hex iff it is 24 hex digits (12 bytes). -/
def isValidOIDHex (s : String) : Bool :=
  s.length = 24 && s.data.all isHexDigit

/-- Lower-case a string character by character (the value of
`String.toLower`, phrased over the character list so it evaluates). -/
def strToLower (s : String) : String :=
  String.mk (s.data.map Char.toLower)

/-- Model of `primitive.ObjectIDFromHex`: hex-decode and length-check; the resulting
ObjectID is represented by the lower-cased hex string. -/
def ObjectIDFromHex (s : String) : Except Err String :=
  if isValidOIDHex s then .ok (strToLower s) else .error .invalidHex

/-- Model of `sessions.Options` (gorilla/sessions cookie options). -/
structure CookieOptions where
  Path : String := ""
  Domain : String := ""
  MaxAge : Int := 0
  Secure : Bool := false
  HttpOnly : Bool := false
deriving DecidableEq, Repr

/-- An outgoing cookie as produced by `sessions.NewCookie(name, value, options)`. -/
structure Cookie where
  name : String
  value : String
  options : CookieOptions
deriving DecidableEq, Repr

/-- Model of `sessions.NewCookie`. -/
def NewCookie (name value : String) (options : CookieOptions) : Cookie :=
  { name := name, value := value, options := options }

/-- The gorilla `sessions.Session` facade (ID, Values, Options, IsNew, name). -/
structure GSession where
  ID : String
  Values : String
  Options : CookieOptions
  IsNew : Bool
  name : String
deriving DecidableEq, Repr

/-- The `session` document persisted in MongoDB:
`{_id, data, last_modified}`. -/
structure session where
  ID : String
  Data : String
  LastModified : Nat
deriving DecidableEq, Repr

/-- Model of `sessionFromGorillaSession`: parse the facade's ID as an ObjectID and
encode its values through the codecs; `now` models `currentTime()`. -/
def sessionFromGorillaSession (sess : GSession) (codecs : List Codec)
    (now : Nat) : Except Err session :=
  match ObjectIDFromHex sess.ID with
  | .error e => .error e
  | .ok oid =>
    match EncodeMulti sess.name sess.Values codecs with
    | .error e => .error e
    | .ok encodedValues => .ok { ID := oid, Data := encodedValues, LastModified := now }

/-- Model of `updateDocFromSession`: the `$set` document `{data, last_modified}`;
`now` models the `time.Now().UTC()` call inside it. -/
def updateDocFromSession (s : session) (now : Nat) : String × Nat :=
  (s.Data, now)

/-- The MongoDB collection state: its documents plus an injected fault flag
for `UpdateOne` (modelling a driver/network write error). -/
structure Mongo where
  docs : List session
  updateFault : Bool
deriving Repr

/-- Model of `Collection.FindOne` on the `_id` filter. -/
def Mongo.findOne (m : Mongo) (oid : String) : Option session :=
  m.docs.find? (fun r => r.ID = oid)

/-- Model of `Collection.UpdateOne` with `SetUpsert(true)` on the `_id` filter: modify
the matched document's `data`/`last_modified`, or insert a fresh document with
that `_id` when none matches. -/
def upsertOne (docs : List session) (oid : String) (upd : String × Nat) :
    List session :=
  if docs.any (fun r => r.ID = oid) then
    docs.map (fun r => if r.ID = oid then { r with Data := upd.1, LastModified := upd.2 } else r)
  else
    docs ++ [{ ID := oid, Data := upd.1, LastModified := upd.2 }]

/-- Remove the first document with the given `_id`
(`Collection.FindOneAndDelete`). -/
def eraseFirstDoc : List session → String → List session
  | [], _ => []
  | r :: rest, oid => if r.ID = oid then rest else r :: eraseFirstDoc rest oid

/-- Model of the package `Options` (`storeOptions`). -/
structure Options where
  TTL : Int
  EnsureTTLIndex : Bool
  LoggingEnabled : Bool
deriving DecidableEq, Repr

/-- Model of `InvalidTTLErr`: typed configuration error carrying the offending TTL. -/
structure InvalidTTLErr where
  invalidTTL : Int
deriving DecidableEq, Repr

/-- Model of `NewInvalidTTLErr`. -/
def NewInvalidTTLErr (ttl : Int) : InvalidTTLErr :=
  { invalidTTL := ttl }

/-- Model of `Options.Validate`: `TTL.Seconds() <= 0` holds exactly when the integer
nanosecond count is `<= 0` (float division by 1e9 preserves sign). -/
def Options.Validate (o : Options) : Except InvalidTTLErr Unit :=
  if o.TTL ≤ 0 then .error (NewInvalidTTLErr o.TTL) else .ok ()

/-- The `MongoDBStore` engine (collection handle and logger omitted: the
collection state `Mongo` is passed per operation, and the logger only logs). -/
structure MongoDBStore where
  ttl : Int
  codecs : List Codec
  defaultOptions : CookieOptions
  storeOptions : Options

/-- Construction errors of `NewMongoDBStore` that are not `InvalidTTLErr`. -/
inductive ConstructErr where
  /-- Failure of `ensureConnection` (ping). -/
  | connFailed
  /-- Failure of `Options.Validate`: invalid TTL (carries the TTL). -/
  | invalidTTL (ttl : Int)
  /-- Failure of `ensureTTLIndex`. -/
  | ttlIndexFailed
deriving DecidableEq, Repr

/-- Model of `int(ttl.Seconds())`: T-division of the nanosecond count by 10^9. -/
def ttlToSeconds (ttl : Int) : Int :=
  Int.tdiv ttl 1000000000

/-- Model of `NewMongoDBStore`: ping the collection, validate the store options,
optionally ensure the TTL index, synthesize default cookie options when none
are given, and return the store.  `connOk` and `ttlIndexOk` model the outcomes
of the two effectful collaborator calls. -/
def NewMongoDBStore (connOk ttlIndexOk : Bool) (storeOptions : Options)
    (sessionOptions : Option CookieOptions) (codecs : List Codec) :
    Except ConstructErr MongoDBStore :=
  if !connOk then .error .connFailed
  else
    match storeOptions.Validate with
    | .error e => .error (.invalidTTL e.invalidTTL)
    | .ok _ =>
      if storeOptions.EnsureTTLIndex && !ttlIndexOk then .error .ttlIndexFailed
      else
        let sessOpts := match sessionOptions with
          | none => { Path := "/", MaxAge := ttlToSeconds storeOptions.TTL : CookieOptions }
          | some o => o
        .ok { ttl := storeOptions.TTL, codecs := codecs,
              defaultOptions := sessOpts, storeOptions := storeOptions }

/-- Model of `MongoDBStore.saveSession`: build the update document and run
`UpdateOne` with upsert on `{_id: sess.ID}`; on driver failure the collection
is unchanged and the error is returned.  `now` models the `time.Now().UTC()`
call inside `updateDocFromSession`. -/
def MongoDBStore.saveSession (m : Mongo) (s : session) (now : Nat) :
    Except Err Mongo :=
  if m.updateFault then .error .updateFailed
  else .ok { m with docs := upsertOne m.docs s.ID (updateDocFromSession s now) }

/-- Model of `MongoDBStore.save`: translate the facade into a `session` document and
persist it. -/
def MongoDBStore.save (store : MongoDBStore) (m : Mongo) (sess : GSession)
    (now : Nat) : Except Err Mongo :=
  match sessionFromGorillaSession sess store.codecs now with
  | .error e => .error e
  | .ok s => MongoDBStore.saveSession m s now

/-- Model of `MongoDBStore.delete`: parse the session ID and `FindOneAndDelete` on
`{_id: oid}`; `.Err()` is `mongo.ErrNoDocuments` when nothing matched. -/
def MongoDBStore.delete (m : Mongo) (sessionID : String) : Except Err Mongo :=
  match ObjectIDFromHex sessionID with
  | .error e => .error e
  | .ok oid =>
    if m.docs.any (fun r => r.ID = oid) then
      .ok { m with docs := eraseFirstDoc m.docs oid }
    else .error .noDocuments

/-- The outcome of one `Save` call: the collection afterwards, the facade
after its in-place mutations, the cookies set on the response writer, and the
returned error. -/
structure SaveOut where
  mongo : Mongo
  sess : GSession
  cookies : List Cookie
  err : Option Err

/-- Model of `MongoDBStore.clearSession`: when the facade is not new, delete its
record (a failure is logged, the empty cookie is still set, and the error is
returned); in every case exactly one empty-valued cookie is set. -/
def MongoDBStore.clearSession (m : Mongo) (sess : GSession) : SaveOut :=
  if !sess.IsNew then
    match MongoDBStore.delete m sess.ID with
    | .error e =>
      { mongo := m, sess := sess,
        cookies := [NewCookie sess.name "" sess.Options], err := some e }
    | .ok m' =>
      { mongo := m', sess := sess,
        cookies := [NewCookie sess.name "" sess.Options], err := none }
  else
    { mongo := m, sess := sess,
      cookies := [NewCookie sess.name "" sess.Options], err := none }

/-- Model of `MongoDBStore.Save`: `max-age <= 0` diverts to `clearSession`; otherwise
generate an ID if empty, persist, clear `IsNew`, encode the ID and set the
cookie.  `freshID` models `primitive.NewObjectID().Hex()` and `now` the
current time. -/
def MongoDBStore.Save (store : MongoDBStore) (m : Mongo) (sess : GSession)
    (freshID : String) (now : Nat) : SaveOut :=
  if sess.Options.MaxAge ≤ 0 then MongoDBStore.clearSession m sess
  else
    let sess := if sess.ID = "" then { sess with ID := freshID } else sess
    match MongoDBStore.save store m sess now with
    | .error e => { mongo := m, sess := sess, cookies := [], err := some e }
    | .ok m' =>
      let sess := { sess with IsNew := false }
      match EncodeMulti sess.name sess.ID store.codecs with
      | .error e => { mongo := m', sess := sess, cookies := [], err := some e }
      | .ok encodedID =>
        { mongo := m', sess := sess,
          cookies := [NewCookie sess.name encodedID sess.Options], err := none }

/-- Model of `MongoDBStore.load`: parse the facade's ID, `FindOne` the document
(`ErrNoDocuments` when absent), and decode its `data` into the facade's
values; the values are only written on a fully successful decode. -/
def MongoDBStore.load (store : MongoDBStore) (m : Mongo) (sess : GSession) :
    Except Err GSession :=
  match ObjectIDFromHex sess.ID with
  | .error e => .error e
  | .ok oid =>
    match m.findOne oid with
    | none => .error .noDocuments
    | some s =>
      match DecodeMulti sess.name s.Data store.codecs with
      | .error e => .error e
      | .ok values => .ok { sess with Values := values }

/-- Model of `MongoDBStore.New`: build a fresh facade (new ID, copy of the default
options, `IsNew`), return it as-is when the request has no cookie, otherwise
decode the cookie into the facade's ID and load the record; every branch
returns the (never-nil) facade.  `reqCookie` models `r.Cookie(sessionKey)`
(`none` = `http.ErrNoCookie`) and `freshID` models
`primitive.NewObjectID().Hex()`. -/
def MongoDBStore.New (store : MongoDBStore) (m : Mongo)
    (reqCookie : Option String) (sessionKey : String) (freshID : String) :
    Option GSession × Option Err :=
  let sess : GSession :=
    { ID := freshID, Values := "", Options := store.defaultOptions,
      IsNew := true, name := sessionKey }
  match reqCookie with
  | none => (some sess, none)
  | some cookieValue =>
    match DecodeMulti sessionKey cookieValue store.codecs with
    | .error e => (some sess, some e)
    | .ok decodedID =>
      let sess := { sess with ID := decodedID }
      match MongoDBStore.load store m sess with
      | .error e => (some sess, some e)
      | .ok loaded => (some { loaded with IsNew := false }, none)

/-!
Pointer model for `derefOpts`.  In the Go code `store.defaultOptions` is a
`*sessions.Options`; `New` executes `sess.Options = derefOpts(store.defaultOptions)`,
and `derefOpts` copies the pointee into a freshly allocated cell (`o := *opts;
return &o`).  The heap of `sessions.Options` cells is modelled explicitly so
that aliasing between the store's pointer and the sessions' pointers can be
stated. -/

/-- A heap of allocated `sessions.Options` cells: the cell contents, and the
next fresh address (every allocated pointer is `< next`). -/
structure OptHeap where
  cells : Nat → CookieOptions
  next : Nat

/-- Mutate the options a pointer refers to (e.g. `sess.Options.MaxAge = 0`). -/
def OptHeap.write (h : OptHeap) (p : Nat) (v : CookieOptions) : OptHeap :=
  { h with cells := fun a => if a = p then v else h.cells a }

/-- Model of `derefOpts`: copy the pointee of `p` into a freshly allocated
cell and return the new pointer (`o := *opts; return &o`). -/
def derefOpts (h : OptHeap) (p : Nat) : OptHeap × Nat :=
  ({ cells := fun a => if a = h.next then h.cells p else h.cells a,
     next := h.next + 1 }, h.next)

/-- Number of documents in the collection carrying a given `_id`. -/
def countID (docs : List session) (oid : String) : Nat :=
  (docs.filter (fun r => r.ID = oid)).length

/-- A collection with no match for `oid` counts zero documents for it. -/
theorem countID_eq_zero_of_any_false (docs : List session) (oid : String)
    (h : docs.any (fun r => r.ID = oid) = false) : countID docs oid = 0 := by
  induction docs with
  | nil => rfl
  | cons r rest ih =>
    simp only [List.any_cons, Bool.or_eq_false_iff] at h
    simp only [countID, List.filter_cons]
    rw [if_neg (by simp [h.1])]
    exact ih h.2

/-- A collection with a match for `oid` counts at least one document. -/
theorem one_le_countID_of_any (docs : List session) (oid : String)
    (h : docs.any (fun r => r.ID = oid) = true) : 1 ≤ countID docs oid := by
  induction docs with
  | nil => simp at h
  | cons r rest ih =>
    simp only [List.any_cons, Bool.or_eq_true] at h
    simp only [countID, List.filter_cons]
    by_cases hr : r.ID = oid
    · simp [hr]
    · rw [if_neg (by simp [hr])]
      exact ih (h.resolve_left (by simp [hr]))

/-- The in-place `$set` update of `upsertOne` does not change how many
documents carry any given `_id`. -/
theorem countID_map_set (docs : List session) (oid : String) (upd : String × Nat) :
    countID (docs.map (fun r =>
      if r.ID = oid then { r with Data := upd.1, LastModified := upd.2 } else r)) oid =
    countID docs oid := by
  induction docs with
  | nil => rfl
  | cons r rest ih =>
    simp only [List.map_cons, countID, List.filter_cons]
    by_cases hr : r.ID = oid
    · rw [if_pos hr]
      simp only [hr, if_pos rfl, List.length_cons]
      rw [if_pos (by simp)]
      simpa [countID] using ih
    · rw [if_neg hr, if_neg (by simp [hr]), if_neg (by simp [hr])]
      exact ih

/-- An upsert keyed on `oid` leaves exactly one document with that `_id`,
provided the collection held at most one before (the `_id` uniqueness
invariant of MongoDB). -/
theorem upsertOne_countID (docs : List session) (oid : String) (upd : String × Nat)
    (h : countID docs oid ≤ 1) : countID (upsertOne docs oid upd) oid = 1 := by
  unfold upsertOne
  by_cases hany : docs.any (fun r => r.ID = oid) = true
  · rw [if_pos hany, countID_map_set]
    exact le_antisymm h (one_le_countID_of_any docs oid hany)
  · rw [if_neg hany]
    have h0 : countID docs oid = 0 :=
      countID_eq_zero_of_any_false docs oid (by simpa using hany)
    simp only [countID, List.filter_append] at h0 ⊢
    simp [List.length_eq_zero.mp h0]

/-- After an upsert keyed on `oid`, some document carries that `_id`. -/
theorem upsertOne_any (docs : List session) (oid : String) (upd : String × Nat) :
    (upsertOne docs oid upd).any (fun r => r.ID = oid) = true := by
  unfold upsertOne
  by_cases hany : docs.any (fun r => r.ID = oid) = true
  · rw [if_pos hany]
    simp only [List.any_eq_true] at hany ⊢
    obtain ⟨r, hr, hid⟩ := hany
    refine ⟨_, List.mem_map_of_mem _ hr, ?_⟩
    simp only [decide_eq_true_eq] at hid
    simp [hid]
  · rw [if_neg hany]
    simp

/-- Removing the first document with a given `_id` from a collection holding
at most one such document leaves none. -/
theorem countID_eraseFirstDoc (docs : List session) (oid : String)
    (h : countID docs oid ≤ 1) : countID (eraseFirstDoc docs oid) oid = 0 := by
  induction docs with
  | nil => rfl
  | cons r rest ih =>
    simp only [eraseFirstDoc]
    by_cases hr : r.ID = oid
    · rw [if_pos hr]
      have hsplit : countID (r :: rest) oid = countID rest oid + 1 := by
        simp [countID, List.filter_cons, hr]
      rw [hsplit] at h
      omega
    · rw [if_neg hr]
      have hcount : countID (r :: rest) oid = countID rest oid := by
        simp [countID, List.filter_cons, hr]
      rw [hcount] at h
      simp only [countID, List.filter_cons]
      rw [if_neg (by simp [hr])]
      exact ih h

/-- A collection counting zero documents for `oid` finds none. -/
theorem findOne_eq_none_of_countID_zero (m : Mongo) (oid : String)
    (h : countID m.docs oid = 0) : m.findOne oid = none := by
  rw [Mongo.findOne, List.find?_eq_none]
  intro r hr
  by_contra hc
  have hmem : r ∈ m.docs.filter (fun r => r.ID = oid) := by
    rw [List.mem_filter]
    exact ⟨hr, by simpa using hc⟩
  rw [countID, List.length_eq_zero] at h
  rw [h] at hmem
  exact absurd hmem (List.not_mem_nil r)

/-!
Concrete fixtures used by witnesses and counterexamples.
-/

/-- A codec that passes payloads through unchanged (always succeeds). -/
def idCodec : Codec :=
  { encode := fun _ v => some v, decode := fun _ tok => some tok }

/-- A valid 24-character ObjectID hex string. -/
def hexA : String := "aaaaaaaaaaaaaaaaaaaaaaaa"

/-- A second, distinct valid ObjectID hex string. -/
def hexB : String := "0123456789abcdef01234567"

/-- A store configured with the pass-through codec. -/
def testStore : MongoDBStore :=
  { ttl := 5000000000, codecs := [idCodec],
    defaultOptions := { Path := "/", MaxAge := 50 },
    storeOptions := { TTL := 5000000000, EnsureTTLIndex := false, LoggingEnabled := false } }

/-- An empty, fault-free collection. -/
def mongoEmpty : Mongo := { docs := [], updateFault := false }

/-- A collection holding one session document with `_id = hexA`. -/
def mongoOne : Mongo :=
  { docs := [{ ID := hexA, Data := "payload", LastModified := 0 }], updateFault := false }

/-- C4. For every TTL value `t <= 0`, `Options.Validate` fails with
`InvalidTTLErr` carrying `t` and `NewMongoDBStore` (with the connectivity
check passing) fails with that configuration error, returning no store; for
every `t > 0` the TTL validation passes. -/
theorem validate_ttl_spec (storeOptions : Options) (ttlIndexOk : Bool)
    (sessionOptions : Option CookieOptions) (codecs : List Codec) :
    (storeOptions.TTL ≤ 0 →
      storeOptions.Validate = .error (NewInvalidTTLErr storeOptions.TTL) ∧
      NewMongoDBStore true ttlIndexOk storeOptions sessionOptions codecs =
        .error (.invalidTTL storeOptions.TTL)) ∧
    (0 < storeOptions.TTL → storeOptions.Validate = .ok ()) := by
  constructor
  · intro h
    constructor
    · simp [Options.Validate, h]
    · simp [NewMongoDBStore, Options.Validate, h, NewInvalidTTLErr]
  · intro h
    simp [Options.Validate, not_le.mpr h]

/-- Witness for C4 at `t = -5` and `t = 10^9`. -/
theorem validate_ttl_spec_witness :
    Options.Validate { TTL := -5, EnsureTTLIndex := false, LoggingEnabled := false } =
      .error (NewInvalidTTLErr (-5)) ∧
    NewMongoDBStore true false
        { TTL := -5, EnsureTTLIndex := false, LoggingEnabled := false } none [] =
      .error (.invalidTTL (-5)) ∧
    Options.Validate { TTL := 1000000000, EnsureTTLIndex := false, LoggingEnabled := false } =
      .ok () := by
  refine ⟨?_, ?_, ?_⟩
  · exact ((validate_ttl_spec _ false none []).1 (by norm_num)).1
  · exact ((validate_ttl_spec _ false none []).1 (by norm_num)).2
  · exact (validate_ttl_spec
      { TTL := 1000000000, EnsureTTLIndex := false, LoggingEnabled := false }
      false none []).2 (by norm_num)

/-- C7. For every TTL `t > 0`, construction with no explicit default session
options (nil) succeeds and synthesizes defaults with path `"/"` and max-age
equal to `t` expressed in (truncated) seconds; the other cookie attributes
are zero-valued. -/
theorem construction_default_options (t : Int) (ensureIdx logging : Bool)
    (codecs : List Codec) (ht : 0 < t) :
    ∃ store, NewMongoDBStore true true
        { TTL := t, EnsureTTLIndex := ensureIdx, LoggingEnabled := logging }
        none codecs = .ok store ∧
      store.defaultOptions =
        { Path := "/", Domain := "", MaxAge := ttlToSeconds t,
          Secure := false, HttpOnly := false } := by
  refine ⟨{ ttl := t, codecs := codecs,
            defaultOptions := { Path := "/", Domain := "", MaxAge := ttlToSeconds t,
                                Secure := false, HttpOnly := false },
            storeOptions :=
              { TTL := t, EnsureTTLIndex := ensureIdx, LoggingEnabled := logging } },
         ?_, rfl⟩
  simp [NewMongoDBStore, Options.Validate, not_le.mpr ht]

/-- Witness for C7 at `t = 5s` (5e9 ns): the synthesized max-age is 5. -/
theorem construction_default_options_witness :
    ∃ store, NewMongoDBStore true true
        { TTL := 5000000000, EnsureTTLIndex := false, LoggingEnabled := false }
        none [] = .ok store ∧
      store.defaultOptions =
        { Path := "/", Domain := "", MaxAge := 5, Secure := false, HttpOnly := false } := by
  have h := construction_default_options 5000000000 false false [] (by norm_num)
  have hsec : ttlToSeconds 5000000000 = 5 := by decide
  rwa [hsec] at h

/-- Loading writes only the facade's values: ID, options, newness flag and
name pass through unchanged. -/
theorem load_preserves_fields (store : MongoDBStore) (m : Mongo)
    (sess loaded : GSession)
    (h : MongoDBStore.load store m sess = .ok loaded) :
    loaded.ID = sess.ID ∧ loaded.Options = sess.Options ∧
    loaded.IsNew = sess.IsNew ∧ loaded.name = sess.name := by
  unfold MongoDBStore.load at h
  cases hoid : ObjectIDFromHex sess.ID with
  | error e => simp [hoid] at h
  | ok oid =>
    simp only [hoid] at h
    cases hfind : m.findOne oid with
    | none => simp [hfind] at h
    | some s =>
      simp only [hfind] at h
      cases hdec : DecodeMulti sess.name s.Data store.codecs with
      | error e => simp [hdec] at h
      | ok values =>
        simp only [hdec, Except.ok.injEq] at h
        subst h
        exact ⟨rfl, rfl, rfl, rfl⟩

/-- C1. For every request cookie, session name and collection state, `New`
returns a session (never `none`, the model of Go's `nil`), and that session is
usable: it carries the requested name and the store's default options — even
in the branches that also return an error. -/
theorem new_always_returns_usable_session (store : MongoDBStore) (m : Mongo)
    (reqCookie : Option String) (sessionKey freshID : String) :
    ∃ s, (MongoDBStore.New store m reqCookie sessionKey freshID).1 = some s ∧
      s.name = sessionKey ∧ s.Options = store.defaultOptions := by
  unfold MongoDBStore.New
  cases reqCookie with
  | none =>
    exact ⟨{ ID := freshID, Values := "", Options := store.defaultOptions,
             IsNew := true, name := sessionKey }, rfl, rfl, rfl⟩
  | some cookieValue =>
    cases hdec : DecodeMulti sessionKey cookieValue store.codecs with
    | error e =>
      exact ⟨{ ID := freshID, Values := "", Options := store.defaultOptions,
               IsNew := true, name := sessionKey }, by simp [hdec], rfl, rfl⟩
    | ok decodedID =>
      cases hload : MongoDBStore.load store m
          { ID := decodedID, Values := "", Options := store.defaultOptions,
            IsNew := true, name := sessionKey } with
      | error e =>
        exact ⟨{ ID := decodedID, Values := "", Options := store.defaultOptions,
                 IsNew := true, name := sessionKey }, by simp [hdec, hload], rfl, rfl⟩
      | ok loaded =>
        obtain ⟨-, hopts, -, hname⟩ := load_preserves_fields _ _ _ _ hload
        refine ⟨{ loaded with IsNew := false }, by simp [hdec, hload], ?_, ?_⟩
        · simpa using hname
        · simpa using hopts

/-- Counterexample to C5: concrete run of `New` where the cookie decodes
successfully (pass-through codec, token `"zz"`) and the record lookup then
fails (malformed identifier).  The session returned alongside the error
carries the identifier decoded from the cookie, `"zz"`, not the newly
generated identifier `hexA` — refuting the claim that the facade keeps the
fresh identifier in this branch. -/
theorem new_load_fail_counterexample :
    (MongoDBStore.New testStore mongoEmpty (some "zz") "k" hexA).2 =
      some Err.invalidHex ∧
    (MongoDBStore.New testStore mongoEmpty (some "zz") "k" hexA).1 =
      some { ID := "zz", Values := "", Options := testStore.defaultOptions,
             IsNew := true, name := "k" } ∧
    ("zz" : String) ≠ hexA := by
  exact ⟨rfl, rfl, by decide⟩

/-- C5 (amended). When the cookie decodes successfully but the record lookup
fails (malformed identifier or not found), `New` returns, alongside the
error, the step-1 facade — default options, `IsNew = true`, empty values,
the requested name — except that its identifier is the identifier decoded
from the cookie, not the freshly generated one. -/
theorem new_load_fail_returns_decoded_facade (store : MongoDBStore) (m : Mongo)
    (sessionKey cookieValue freshID decodedID : String) (e : Err)
    (hdec : DecodeMulti sessionKey cookieValue store.codecs = .ok decodedID)
    (hload : MongoDBStore.load store m
        { ID := decodedID, Values := "", Options := store.defaultOptions,
          IsNew := true, name := sessionKey } = .error e) :
    MongoDBStore.New store m (some cookieValue) sessionKey freshID =
      (some { ID := decodedID, Values := "", Options := store.defaultOptions,
              IsNew := true, name := sessionKey }, some e) := by
  simp [MongoDBStore.New, hdec, hload]

/-- Witness for the amended C5 at a concrete input (cookie decoding to a
malformed identifier). -/
theorem new_load_fail_returns_decoded_facade_witness :
    MongoDBStore.New testStore mongoEmpty (some "yy") "k" hexA =
      (some { ID := "yy", Values := "", Options := testStore.defaultOptions,
              IsNew := true, name := "k" }, some Err.invalidHex) :=
  new_load_fail_returns_decoded_facade testStore mongoEmpty "k" "yy" hexA "yy"
    Err.invalidHex rfl rfl

/-- Reduction of `Save` on the normal path (positive max-age, non-empty valid
identifier, values encode successfully, no driver fault): the record is
upserted, `IsNew` is cleared, and the outcome of the identifier encoding
decides the error and the cookie. -/
theorem save_normal_spec (store : MongoDBStore) (m : Mongo) (sess : GSession)
    (freshID : String) (now : Nat) (tok : String)
    (hage : 0 < sess.Options.MaxAge) (hne : sess.ID ≠ "")
    (hvalid : isValidOIDHex sess.ID = true)
    (henc : EncodeMulti sess.name sess.Values store.codecs = .ok tok)
    (hfault : m.updateFault = false) :
    MongoDBStore.Save store m sess freshID now =
      match EncodeMulti sess.name sess.ID store.codecs with
      | .error e =>
        { mongo := { docs := upsertOne m.docs (strToLower sess.ID) (tok, now),
                     updateFault := false },
          sess := { sess with IsNew := false }, cookies := [], err := some e }
      | .ok encodedID =>
        { mongo := { docs := upsertOne m.docs (strToLower sess.ID) (tok, now),
                     updateFault := false },
          sess := { sess with IsNew := false },
          cookies := [NewCookie sess.name encodedID sess.Options], err := none } := by
  have hage2 : ¬ sess.Options.MaxAge ≤ 0 := not_le.mpr hage
  cases hE : EncodeMulti sess.name sess.ID store.codecs with
  | error e =>
    simp [MongoDBStore.Save, hage2, hne, MongoDBStore.save, sessionFromGorillaSession,
          ObjectIDFromHex, hvalid, henc, MongoDBStore.saveSession, hfault,
          updateDocFromSession, hE]
  | ok encodedID =>
    simp [MongoDBStore.Save, hage2, hne, MongoDBStore.save, sessionFromGorillaSession,
          ObjectIDFromHex, hvalid, henc, MongoDBStore.saveSession, hfault,
          updateDocFromSession, hE]

/-- C3. For every `Save` call on the normal path (`max-age > 0`) that fails —
identifier-format error in translation, value-encoding error, database upsert
error, or identifier-encoding error — the error is returned and no cookie is
set on the response; in particular a session whose identifier is a non-empty
string that is not valid ObjectID hex yields the format error and no cookie. -/
theorem save_error_sets_no_cookie (store : MongoDBStore) (m : Mongo)
    (sess : GSession) (freshID : String) (now : Nat)
    (hage : 0 < sess.Options.MaxAge) :
    ((MongoDBStore.Save store m sess freshID now).err.isSome →
      (MongoDBStore.Save store m sess freshID now).cookies = []) ∧
    (sess.ID ≠ "" → isValidOIDHex sess.ID = false →
      (MongoDBStore.Save store m sess freshID now).err = some Err.invalidHex ∧
      (MongoDBStore.Save store m sess freshID now).cookies = []) := by
  have hage2 : ¬ sess.Options.MaxAge ≤ 0 := not_le.mpr hage
  constructor
  · simp only [MongoDBStore.Save, if_neg hage2]
    generalize (if sess.ID = "" then { sess with ID := freshID } else sess) = s2
    cases hs : MongoDBStore.save store m s2 now with
    | error e => simp [hs]
    | ok m2 =>
      cases hE : EncodeMulti s2.name s2.ID store.codecs with
      | error e => simp [hs, hE]
      | ok encodedID => simp [hs, hE]
  · intro hne hinvalid
    have hs : MongoDBStore.save store m sess now = .error Err.invalidHex := by
      simp [MongoDBStore.save, sessionFromGorillaSession, ObjectIDFromHex, hinvalid]
    constructor
    · simp [MongoDBStore.Save, if_neg hage2, hne, hs]
    · simp [MongoDBStore.Save, if_neg hage2, hne, hs]

/-- A facade whose identifier is not a valid ObjectID hex string. -/
def sessBadID : GSession :=
  { ID := "abcdee", Values := "v", Options := { Path := "/", MaxAge := 50 },
    IsNew := true, name := "k" }

/-- Witness for C3: saving a session with identifier `"abcdee"` returns the
format error and sets no cookie. -/
theorem save_error_sets_no_cookie_witness :
    (MongoDBStore.Save testStore mongoEmpty sessBadID hexA 5).err =
      some Err.invalidHex ∧
    (MongoDBStore.Save testStore mongoEmpty sessBadID hexA 5).cookies = [] :=
  (save_error_sets_no_cookie testStore mongoEmpty sessBadID hexA 5
    (by decide)).2 (by decide) (by decide)

/-- C10. On the normal save path, `IsNew` is cleared right after the upsert
succeeds and before the identifier is encoded into a cookie: when the
identifier encoding then fails, `Save` returns that error while the session
already has `IsNew = false` and the record remains persisted in the store. -/
theorem save_clears_isnew_before_id_encode (store : MongoDBStore) (m : Mongo)
    (sess : GSession) (freshID : String) (now : Nat) (tok : String) (e : Err)
    (hage : 0 < sess.Options.MaxAge) (hne : sess.ID ≠ "")
    (hvalid : isValidOIDHex sess.ID = true)
    (henc : EncodeMulti sess.name sess.Values store.codecs = .ok tok)
    (hfault : m.updateFault = false)
    (hide : EncodeMulti sess.name sess.ID store.codecs = .error e) :
    (MongoDBStore.Save store m sess freshID now).err = some e ∧
    (MongoDBStore.Save store m sess freshID now).sess.IsNew = false ∧
    (MongoDBStore.Save store m sess freshID now).mongo.docs.any
      (fun r => r.ID = (strToLower sess.ID)) = true := by
  have h := save_normal_spec store m sess freshID now tok hage hne hvalid henc hfault
  rw [h, hide]
  refine ⟨by simp, by simp, ?_⟩
  simpa using upsertOne_any m.docs (strToLower sess.ID) (tok, now)

/-- A codec that encodes only the payload `"v"` and decodes anything:
used to exhibit a value-encode success followed by an ID-encode failure. -/
def pickyCodec : Codec :=
  { encode := fun _ v => if v = "v" then some v else none,
    decode := fun _ tok => some tok }

/-- A store configured with the picky codec. -/
def pickyStore : MongoDBStore :=
  { ttl := 5000000000, codecs := [pickyCodec],
    defaultOptions := { Path := "/", MaxAge := 50 },
    storeOptions := { TTL := 5000000000, EnsureTTLIndex := false, LoggingEnabled := false } }

/-- A well-formed non-new-save session facade with identifier `hexA`. -/
def sessGood : GSession :=
  { ID := hexA, Values := "v", Options := { Path := "/", MaxAge := 50 },
    IsNew := true, name := "k" }

/-- Witness for C10: the picky codec encodes the values but fails on the
identifier, so `Save` errors with the session already marked not-new and the
record persisted. -/
theorem save_clears_isnew_before_id_encode_witness :
    (MongoDBStore.Save pickyStore mongoEmpty sessGood hexA 5).err =
      some Err.codecFailed ∧
    (MongoDBStore.Save pickyStore mongoEmpty sessGood hexA 5).sess.IsNew = false ∧
    (MongoDBStore.Save pickyStore mongoEmpty sessGood hexA 5).mongo.docs.any
      (fun r => r.ID = (strToLower sessGood.ID)) = true :=
  save_clears_isnew_before_id_encode pickyStore mongoEmpty sessGood hexA 5 "v"
    Err.codecFailed (by decide) (by decide) (by decide) rfl rfl rfl

/-- C8. Saving the same unmodified facade twice in succession (normal path)
leaves exactly one record in the collection for its identifier: the write is
an upsert keyed on `_id`, never a duplicate insert.  The hypothesis
`countID m.docs (strToLower sess.ID) <= 1` is the `_id` uniqueness invariant of
the backing collection. -/
theorem save_twice_single_record (store : MongoDBStore) (m : Mongo)
    (sess : GSession) (freshID : String) (now now2 : Nat) (tok : String)
    (hage : 0 < sess.Options.MaxAge) (hne : sess.ID ≠ "")
    (hvalid : isValidOIDHex sess.ID = true)
    (henc : EncodeMulti sess.name sess.Values store.codecs = .ok tok)
    (hfault : m.updateFault = false)
    (huniq : countID m.docs (strToLower sess.ID) ≤ 1) :
    countID (MongoDBStore.Save store m sess freshID now).mongo.docs
      (strToLower sess.ID) = 1 ∧
    countID (MongoDBStore.Save store
        (MongoDBStore.Save store m sess freshID now).mongo
        (MongoDBStore.Save store m sess freshID now).sess freshID now2).mongo.docs
      (strToLower sess.ID) = 1 := by
  have h1 := save_normal_spec store m sess freshID now tok hage hne hvalid henc hfault
  have hm1 : (MongoDBStore.Save store m sess freshID now).mongo =
      { docs := upsertOne m.docs (strToLower sess.ID) (tok, now), updateFault := false } := by
    rw [h1]; cases hE : EncodeMulti sess.name sess.ID store.codecs <;> simp [hE]
  have hs1 : (MongoDBStore.Save store m sess freshID now).sess =
      { sess with IsNew := false } := by
    rw [h1]; cases hE : EncodeMulti sess.name sess.ID store.codecs <;> simp [hE]
  have hc1 : countID (upsertOne m.docs (strToLower sess.ID) (tok, now)) (strToLower sess.ID) = 1 :=
    upsertOne_countID _ _ _ huniq
  refine ⟨by rw [hm1]; exact hc1, ?_⟩
  rw [hm1, hs1]
  have h2 := save_normal_spec store
      { docs := upsertOne m.docs (strToLower sess.ID) (tok, now), updateFault := false }
      { sess with IsNew := false } freshID now2 tok hage hne hvalid henc rfl
  have hm2 : (MongoDBStore.Save store
      { docs := upsertOne m.docs (strToLower sess.ID) (tok, now), updateFault := false }
      { sess with IsNew := false } freshID now2).mongo =
      { docs := upsertOne (upsertOne m.docs (strToLower sess.ID) (tok, now))
          (strToLower sess.ID) (tok, now2), updateFault := false } := by
    rw [h2]
    cases hE : EncodeMulti sess.name sess.ID store.codecs <;> simp [hE]
  rw [hm2]
  exact upsertOne_countID _ _ _ (le_of_eq hc1)

/-- Witness for C8: two consecutive saves of `sessGood` against the empty
collection leave exactly one record with its identifier. -/
theorem save_twice_single_record_witness :
    countID (MongoDBStore.Save testStore mongoEmpty sessGood hexA 5).mongo.docs
      (strToLower sessGood.ID) = 1 ∧
    countID (MongoDBStore.Save testStore
        (MongoDBStore.Save testStore mongoEmpty sessGood hexA 5).mongo
        (MongoDBStore.Save testStore mongoEmpty sessGood hexA 5).sess hexA 6).mongo.docs
      (strToLower sessGood.ID) = 1 :=
  save_twice_single_record testStore mongoEmpty sessGood hexA 5 6 "v"
    (by decide) (by decide) (by decide) rfl rfl (by decide)

/-- A store configured with an empty codec capability list. -/
def noCodecStore : MongoDBStore :=
  { ttl := 5000000000, codecs := [],
    defaultOptions := { Path := "/", MaxAge := 50 },
    storeOptions := { TTL := 5000000000, EnsureTTLIndex := false, LoggingEnabled := false } }

/-- Counterexample to C6: with an empty codec list, `Save` of a well-formed
session with `max-age > 0` does not succeed and stores nothing — securecookie
`EncodeMulti` (v1.1.1) rejects an empty codec list with the no-codecs error,
so the save aborts before reaching the database. -/
theorem save_empty_codecs_counterexample :
    (MongoDBStore.Save noCodecStore mongoEmpty sessGood hexA 5).err =
      some Err.noCodecs ∧
    (MongoDBStore.Save noCodecStore mongoEmpty sessGood hexA 5).mongo.docs = [] ∧
    (MongoDBStore.Save noCodecStore mongoEmpty sessGood hexA 5).cookies = [] :=
  ⟨rfl, rfl, rfl⟩

/-- C6 (amended). For every store with an empty codec capability list, `Save`
of a session with `max-age > 0` (and a non-empty, well-formed identifier)
fails with the no-codecs encoding error, leaves the collection unchanged, and
sets no cookie. -/
theorem save_empty_codecs_fails (store : MongoDBStore) (m : Mongo)
    (sess : GSession) (freshID : String) (now : Nat)
    (hcodecs : store.codecs = [])
    (hage : 0 < sess.Options.MaxAge)
    (hne : sess.ID ≠ "") (hvalid : isValidOIDHex sess.ID = true) :
    (MongoDBStore.Save store m sess freshID now).err = some Err.noCodecs ∧
    (MongoDBStore.Save store m sess freshID now).mongo = m ∧
    (MongoDBStore.Save store m sess freshID now).cookies = [] := by
  have hage2 : ¬ sess.Options.MaxAge ≤ 0 := not_le.mpr hage
  have hs : MongoDBStore.save store m sess now = .error Err.noCodecs := by
    simp [MongoDBStore.save, sessionFromGorillaSession, ObjectIDFromHex, hvalid,
          EncodeMulti, hcodecs]
  refine ⟨?_, ?_, ?_⟩ <;> simp [MongoDBStore.Save, hage2, hne, hs]

/-- Witness for the amended C6 at the concrete no-codec store. -/
theorem save_empty_codecs_fails_witness :
    (MongoDBStore.Save noCodecStore mongoOne sessGood hexB 7).err =
      some Err.noCodecs ∧
    (MongoDBStore.Save noCodecStore mongoOne sessGood hexB 7).mongo = mongoOne ∧
    (MongoDBStore.Save noCodecStore mongoOne sessGood hexB 7).cookies = [] :=
  save_empty_codecs_fails noCodecStore mongoOne sessGood hexB 7 rfl
    (by decide) (by decide) (by decide)

/-- A successful `delete` implies the identifier was valid hex and the result
collection is the original with the first matching document removed. -/
theorem delete_ok_spec (m m2 : Mongo) (sid : String)
    (h : MongoDBStore.delete m sid = .ok m2) :
    isValidOIDHex sid = true ∧
    m2.docs = eraseFirstDoc m.docs (strToLower sid) ∧
    m2.updateFault = m.updateFault := by
  unfold MongoDBStore.delete at h
  by_cases hv : isValidOIDHex sid = true
  · simp only [ObjectIDFromHex, hv, if_true] at h
    by_cases hany : m.docs.any (fun r => r.ID = (strToLower sid)) = true
    · simp only [hany, if_true, Except.ok.injEq] at h
      subst h
      exact ⟨hv, rfl, rfl⟩
    · simp only [Bool.not_eq_true] at hany
      simp [hany] at h
  · simp only [Bool.not_eq_true] at hv
    simp [ObjectIDFromHex, hv] at h

/-- C2. For every `Save` with `max-age <= 0`: exactly one empty-valued cookie
is set in every case; when the session is not new the delete is attempted —
a delete failure is still returned to the caller (collection unchanged), and
on delete success the record is gone, so loading any facade with that
identifier afterwards fails with the not-found error; when the session is new
no delete is attempted and the collection is untouched.  The hypothesis on
`countID` is the `_id` uniqueness invariant of the backing collection. -/
theorem save_maxage_nonpos_clears (store : MongoDBStore) (m : Mongo)
    (sess : GSession) (freshID : String) (now : Nat)
    (hage : sess.Options.MaxAge ≤ 0)
    (huniq : countID m.docs (strToLower sess.ID) ≤ 1) :
    (MongoDBStore.Save store m sess freshID now).cookies =
      [NewCookie sess.name "" sess.Options] ∧
    (sess.IsNew = false →
      (∀ e, MongoDBStore.delete m sess.ID = .error e →
        (MongoDBStore.Save store m sess freshID now).err = some e ∧
        (MongoDBStore.Save store m sess freshID now).mongo = m) ∧
      (∀ m2, MongoDBStore.delete m sess.ID = .ok m2 →
        (MongoDBStore.Save store m sess freshID now).err = none ∧
        (MongoDBStore.Save store m sess freshID now).mongo = m2 ∧
        ∀ sess2 : GSession, sess2.ID = sess.ID →
          MongoDBStore.load store m2 sess2 = .error Err.noDocuments)) ∧
    (sess.IsNew = true →
      (MongoDBStore.Save store m sess freshID now).err = none ∧
      (MongoDBStore.Save store m sess freshID now).mongo = m) := by
  simp only [MongoDBStore.Save, if_pos hage]
  refine ⟨?_, ?_, ?_⟩
  · unfold MongoDBStore.clearSession
    cases hn : sess.IsNew with
    | true => simp
    | false =>
      cases hdel : MongoDBStore.delete m sess.ID with
      | error e => simp [hdel]
      | ok m2 => simp [hdel]
  · intro hn
    constructor
    · intro e hdel
      unfold MongoDBStore.clearSession
      simp [hn, hdel]
    · intro m2 hdel
      unfold MongoDBStore.clearSession
      refine ⟨by simp [hn, hdel], by simp [hn, hdel], ?_⟩
      intro sess2 hid2
      obtain ⟨hv, hdocs, -⟩ := delete_ok_spec m m2 sess.ID hdel
      have hcount : countID m2.docs (strToLower sess.ID) = 0 := by
        rw [hdocs]
        exact countID_eraseFirstDoc _ _ huniq
      have hfind : m2.findOne (strToLower sess.ID) = none :=
        findOne_eq_none_of_countID_zero m2 _ hcount
      simp [MongoDBStore.load, ObjectIDFromHex, hid2, hv, hfind]
  · intro hn
    unfold MongoDBStore.clearSession
    simp [hn]

/-- A not-new facade carrying identifier `hexA` and a termination request
(`max-age = 0`). -/
def sessOld : GSession :=
  { ID := hexA, Values := "v", Options := { Path := "/", MaxAge := 0 },
    IsNew := false, name := "k" }

/-- Witness for C2: terminating `sessOld` against the collection holding its
record sets exactly the empty cookie. -/
theorem save_maxage_nonpos_clears_witness :
    (MongoDBStore.Save testStore mongoOne sessOld hexB 5).cookies =
      [NewCookie sessOld.name "" sessOld.Options] :=
  (save_maxage_nonpos_clears testStore mongoOne sessOld hexB 5
    (by decide) (by decide)).1

/-- C9. The options assignment in `New`
(`sess.Options = derefOpts(store.defaultOptions)`) allocates a fresh copy of
the store's default options: the pointer returned by `derefOpts` differs from
the store's pointer `p` and from every previously allocated pointer `q` (any
other session's options), it initially holds the same options value, and
mutating through it (for example setting its max-age to 0) leaves the options
behind every such `q` unchanged. -/
theorem derefOpts_fresh_copy (h : OptHeap) (p q : Nat) (v : CookieOptions)
    (hp : p < h.next) (hq : q < h.next) :
    (derefOpts h p).1.cells (derefOpts h p).2 = h.cells p ∧
    (derefOpts h p).2 ≠ p ∧
    (derefOpts h p).2 ≠ q ∧
    ((derefOpts h p).1.write (derefOpts h p).2 v).cells q = h.cells q := by
  refine ⟨?_, ?_, ?_, ?_⟩
  · simp [derefOpts]
  · simp only [derefOpts]
    omega
  · simp only [derefOpts]
    omega
  · simp only [derefOpts, OptHeap.write]
    rw [if_neg (by omega), if_neg (by omega)]

/-- A heap with two allocated options cells (the store's defaults at pointer
0, another session's options at pointer 1). -/
def optHeap0 : OptHeap :=
  { cells := fun _ => { Path := "/", MaxAge := 50 }, next := 2 }

/-- A mutated options value (termination request). -/
def optsV : CookieOptions := { Path := "/", MaxAge := 0 }

/-- Witness for C9 on the two-cell heap: the fresh pointer is distinct from
both allocated pointers and writing through it changes neither. -/
theorem derefOpts_fresh_copy_witness :
    (derefOpts optHeap0 0).1.cells (derefOpts optHeap0 0).2 = optHeap0.cells 0 ∧
    (derefOpts optHeap0 0).2 ≠ 0 ∧
    (derefOpts optHeap0 0).2 ≠ 1 ∧
    ((derefOpts optHeap0 0).1.write (derefOpts optHeap0 0).2 optsV).cells 1 =
      optHeap0.cells 1 :=
  derefOpts_fresh_copy optHeap0 0 1 optsV (by decide) (by decide)
